import Mathlib

/-!
Verification of the Zotero SQLite extraction engine (`papis_zotero/sql.py`).

The Python source is shallowly embedded: SQL query results are modelled as
lists of rows, Python dictionaries as association lists with insert-or-update
semantics, the file system as the list of existing paths, and the external
add-operation as a boolean-valued function (`true` = the call returns,
`false` = the call raises).
-/

namespace PapisZotero

/-- Values stored in a normalized record: Python strings, ints,
lists of strings, and lists of `{given, family}` creator records. -/
inductive Val where
  | str : String → Val
  | nat : Nat → Val
  | strList : List String → Val
  | recList : List (String × String) → Val
deriving DecidableEq, Repr

/-- Python `dict` assignment `d[k] = v` on an association list:
update in place if the key exists, else append at the end. -/
def dictInsertS : List (String × String) → String → String → List (String × String)
  | [], k, v => [(k, v)]
  | (k0, v0) :: rest, k, v =>
    if k0 = k then (k0, v) :: rest else (k0, v0) :: dictInsertS rest k v

/-- Python `dict` assignment for `Val`-valued dictionaries. -/
def dictInsertV : List (String × Val) → String → Val → List (String × Val)
  | [], k, v => [(k, v)]
  | (k0, v0) :: rest, k, v =>
    if k0 = k then (k0, v) :: rest else (k0, v0) :: dictInsertV rest k v

/-- Python `d.pop(k, None)`: the popped value (if any) and the remaining dict. -/
def dictPopS : List (String × String) → String → Option String × List (String × String)
  | [], _ => (none, [])
  | (k0, v0) :: rest, k =>
    if k0 = k then (some v0, rest)
    else
      let r := dictPopS rest k
      (r.1, (k0, v0) :: r.2)

/-- Dictionary lookup (`d.get(k)` / `d[k]`). -/
def alookup {α : Type} : List (String × α) → String → Option α
  | [], _ => none
  | (k0, v) :: rest, k => if k0 = k then some v else alookup rest k

/-- Python `d.get(k, k)`-style lookup with the key itself as default,
used for the static field-name and item-type translation tables. -/
def dictGetD (m : List (String × String)) (k : String) : String :=
  (alookup m k).getD k

/-- Python `d.update(u)`: insert every pair of `u` into `d`, in order. -/
def dictUpdate (d : List (String × Val)) (u : List (String × Val)) : List (String × Val) :=
  u.foldl (fun acc kv => dictInsertV acc kv.1 kv.2) d

/-- Model of `os.path.join` for the relative second components this code builds. -/
def joinPath (a b : String) : String := a ++ "/" ++ b

/-- ASCII-digit test (the date strings handled by the source are ASCII). -/
def isDig (c : Char) : Bool := c.isDigit

/-- Numeric value of a digit string, as computed by Python `int`. -/
def digitsToNat (l : List Char) : Nat :=
  l.foldl (fun n c => n * 10 + (c.toNat - 48)) 0

/-- Greedy `\d{0,n}`: take up to `n` leading digits, returning them and the rest. -/
def takeDigitsUpTo : Nat → List Char → List Char × List Char
  | 0, cs => ([], cs)
  | _ + 1, [] => ([], [])
  | n + 1, c :: cs =>
    if isDig c then
      let r := takeDigitsUpTo n cs
      (c :: r.1, r.2)
    else ([], c :: cs)

/-- Consume one leading `-` if present (the regex piece `-?`). -/
def skipDash : List Char → List Char
  | '-' :: rest => rest
  | cs => cs

/-- Model of `re.match` with `ISO_DATE_RE = (?P<year>\d{4})-?(?P<month>\d{1,2})?-?(?P<day>\d{1,2})?`:
an anchored prefix match; returns the `year`, `month` and `day` groups.
The match succeeds iff the string starts with four digits; all later pieces
are optional and greedy, so no backtracking can occur. -/
def isoDateMatch (cs : List Char) : Option (List Char × Option (List Char) × Option (List Char)) :=
  let y := takeDigitsUpTo 4 cs
  if y.1.length = 4 then
    let m := takeDigitsUpTo 2 (skipDash y.2)
    let mo := if m.1.isEmpty then none else some m.1
    let d := takeDigitsUpTo 2 (skipDash m.2)
    let da := if d.1.isEmpty then none else some d.1
    some (y.1, mo, da)
  else none

/-- Phase 1 of `get_fields`: the row loop. Skips rows whose field name is in
the excluded-field deny-list, translates the name through the static
field-name table (identity if absent) and assigns into the dict. -/
def collectFields (excluded : List String) (fieldNameMap : List (String × String))
    (rows : List (String × String)) : List (String × String) :=
  rows.foldl
    (fun d r =>
      if excluded.contains r.1 then d else dictInsertS d (dictGetD fieldNameMap r.1) r.2)
    []

/-- The `date` value popped from the collected fields (`fields.pop("date", None)`). -/
def rawDate (excluded : List String) (fieldNameMap : List (String × String))
    (rows : List (String × String)) : Option String :=
  (dictPopS (collectFields excluded fieldNameMap rows) "date").1

/-- Function `get_fields`: collect the translated rows, pop `date`, and either split it
into integer `year` / optional integer `month` (day parsed but discarded)
when the fuzzy regex matches, or restore the literal string as `date`. -/
def get_fields (excluded : List String) (fieldNameMap : List (String × String))
    (rows : List (String × String)) : List (String × Val) :=
  let p := dictPopS (collectFields excluded fieldNameMap rows) "date"
  let base : List (String × Val) := p.2.map (fun kv => (kv.1, Val.str kv.2))
  match p.1 with
  | none => base
  | some date =>
    match isoDateMatch date.data with
    | some (y, mo, _) =>
      let f1 := dictInsertV base "year" (Val.nat (digitsToNat y))
      match mo with
      | some m => dictInsertV f1 "month" (Val.nat (digitsToNat m))
      | none => f1
    | none => dictInsertV base "date" (Val.str date)

/-- The string starts with four ASCII digits — exactly the condition for
`ISO_DATE_RE` to match at all. -/
def hasFourDigitPrefix (s : String) : Bool :=
  ((s.data.take 4).length = 4) && (s.data.take 4).all isDig

/-- The claim pattern `YYYY[-MM[-DD]]` as a whole-string shape: four digits,
optionally a dash and one or two digits, optionally another dash and one or
two digits, with nothing after. -/
def specDateShape (s : String) : Bool :=
  let y := takeDigitsUpTo 4 s.data
  if y.1.length = 4 then
    match y.2 with
    | [] => true
    | '-' :: r1 =>
      let m := takeDigitsUpTo 2 r1
      if m.1.isEmpty then false
      else
        match m.2 with
        | [] => true
        | '-' :: r2 =>
          let d := takeDigitsUpTo 2 r2
          !d.1.isEmpty && d.2.isEmpty
        | _ => false
    | _ => false
  else false

/-- The keys of a dictionary. -/
def keysOf {α : Type} (d : List (String × α)) : List String := d.map Prod.fst

/-! ### Collection hierarchy resolver (`get_collections`) -/

/-- A row of the `collections` table. -/
structure ZCollection where
  collectionID : Nat
  collectionName : String
  parentCollectionID : Option Nat
deriving DecidableEq, Repr

/-- Join on `collections.collectionID` (unique in a well-formed database). -/
def findCollection (cols : List ZCollection) (cid : Nat) : Option ZCollection :=
  cols.find? (fun c => c.collectionID = cid)

/-- The collections an item directly belongs to
(`collections JOIN collectionItems ... WHERE ci.itemID = ?`);
`collectionItems` rows are `(collectionID, itemID)` pairs. -/
def directCollections (cols : List ZCollection) (mems : List (Nat × Nat))
    (itemId : Nat) : List ZCollection :=
  (mems.filter (fun m => m.2 = itemId)).filterMap (fun m => findCollection cols m.1)

/-- Model of `ORDER BY c.collectionID LIMIT 1`: the direct membership with the smallest
internal collection identifier. -/
def chooseStart (cols : List ZCollection) (mems : List (Nat × Nat))
    (itemId : Nat) : Option ZCollection :=
  (directCollections cols mems itemId).foldl
    (fun acc c =>
      match acc with
      | none => some c
      | some b => if c.collectionID < b.collectionID then some c else some b)
    none

/-- The recursive part of `ZOTERO_QUERY_ITEM_COLLECTIONS`: follow the parent
pointer, recording `(name, depth)` at each step; stops at a collection with no
parent (the `JOIN` on a NULL parent produces no row). The fuel argument bounds
the walk; for an acyclic hierarchy, fuel `cols.length` reaches the root. -/
def walkUp (cols : List ZCollection) : Nat → Option Nat → Nat → List (String × Nat)
  | 0, _, _ => []
  | _ + 1, none, _ => []
  | fuel + 1, some pid, depth =>
    match findCollection cols pid with
    | none => []
    | some c => (c.collectionName, depth) :: walkUp cols fuel c.parentCollectionID (depth + 1)

/-- Model of `SELECT DISTINCT name`: deduplicate by name, keeping the first
(lowest-depth) occurrence, as SQLite does for this query. -/
def dedupeByName : List (String × Nat) → List String → List (String × Nat)
  | [], _ => []
  | x :: rest, seen =>
    if seen.contains x.1 then dedupeByName rest seen
    else x :: dedupeByName rest (x.1 :: seen)

/-- Model of `ORDER BY depth DESC` (root first). -/
def sortByDepthDesc (l : List (String × Nat)) : List (String × Nat) :=
  List.insertionSort (fun a b => b.2 ≤ a.2) l

/-- Function `get_collections`: names along the parent chain of the item's chosen direct
collection, root first; empty when the item belongs to no collection. -/
def get_collections (cols : List ZCollection) (mems : List (Nat × Nat))
    (itemId : Nat) : List String :=
  match chooseStart cols mems itemId with
  | none => []
  | some c =>
    (sortByDepthDesc
      (dedupeByName
        ((c.collectionName, 0) :: walkUp cols cols.length c.parentCollectionID 1) [])).map
      Prod.fst

/-- The dict contribution of `get_collections`
(`{"collections": collections} if collections else {}`). -/
def collectionsDict (cols : List ZCollection) (mems : List (Nat × Nat))
    (itemId : Nat) : List (String × Val) :=
  match get_collections cols mems itemId with
  | [] => []
  | l => [("collections", Val.strList l)]

/-! ### Attachment resolver (`get_files`) -/

/-- A row of the attachment query: the attachment item's key, its `path`
column (possibly NULL) and its MIME content type. -/
structure ZAttachment where
  key : String
  path : Option String
  contentType : String
deriving DecidableEq, Repr

/-- Model of `re.match(r"<pre>(.*)", path)`: anchored prefix match; on success the
group holds everything after the prefix up to the first newline
(`.` does not match a newline). -/
def reMatchGroupAfter (pre s : String) : Option String :=
  if pre.data.isPrefixOf s.data then
    some (String.mk ((s.data.drop pre.data.length).takeWhile (fun c => c ≠ '\n')))
  else none

/-- Resolution of one attachment row, following the three addressing
conventions of `get_files`: `storage:<name>`, `attachments:<name>`, or a raw
on-disk path; `none` when the row is dropped (with a log message). -/
def resolveAttachment (fs : List String) (inputPath attachmentsFolder : String)
    (a : ZAttachment) : Option String :=
  match a.path with
  | none => none
  | some path =>
    match reMatchGroupAfter "storage:" path with
    | some name =>
      let fp := joinPath (joinPath (joinPath inputPath "storage") a.key) name
      if fs.contains fp then some fp else none
    | none =>
      match reMatchGroupAfter "attachments:" path with
      | some name =>
        let fp := joinPath attachmentsFolder name
        if fs.contains fp then some fp else none
      | none => if fs.contains path then some path else none

/-- Function `get_files`: the attachment query restricts rows to the supported MIME
allow-list; each remaining row contributes at most one resolved path, in
query order. `fs` is the set of paths existing on disk. -/
def get_files (supported fs : List String) (inputPath attachmentsFolder : String)
    (rows : List ZAttachment) : List String :=
  (rows.filter (fun a => supported.contains a.contentType)).filterMap
    (resolveAttachment fs inputPath attachmentsFolder)

/-! ### Creator resolver (`get_creators`) -/

/-- Python `str.lower()` on the ASCII role names, as a character map
(kernel-computable, unlike `String.toLower`). -/
def strToLower (s : String) : String := String.mk (s.data.map Char.toLower)

/-- Model of `creators_by_type.setdefault(ctype, []).append(creator)`: append the
creator to its role group, creating the group at the end on first sight. -/
def addToGroup : List (String × List (String × String)) → String → (String × String) →
    List (String × List (String × String))
  | [], k, v => [(k, [v])]
  | (k0, l0) :: rest, k, v =>
    if k0 = k then (k0, l0 ++ [v]) :: rest else (k0, l0) :: addToGroup rest k v

/-- The creator grouping loop of `get_creators`: rows are
`(creatorType, firstName, lastName)` triples in query order
(`ORDER BY creatorType, orderIndex`); group values are `(given, family)`. -/
def groupCreators (rows : List (String × String × String)) :
    List (String × List (String × String)) :=
  rows.foldl (fun acc r => addToGroup acc (strToLower r.1) (r.2.1, r.2.2)) []

/-- Modelled from the spec: `papis.document.author_list_to_author` is an
external collaborator not in this repository; per the spec it turns an
ordered list of `{given, family}` records into a single human-readable
"Family, Given; Family, Given" style display string. -/
def author_list_to_author : List (String × String) → String
  | [] => ""
  | [a] => a.2 ++ ", " ++ a.1
  | a :: rest => (a.2 ++ ", " ++ a.1) ++ "; " ++ author_list_to_author rest

/-- The result loop of `get_creators`: for each role group insert the display
string under the role key and the raw list under `<role>_list`. -/
def buildCreatorsResult (acc : List (String × Val)) :
    List (String × List (String × String)) → List (String × Val)
  | [] => acc
  | g :: gs =>
    buildCreatorsResult
      (dictInsertV (dictInsertV acc g.1 (Val.str (author_list_to_author g.2)))
        (g.1 ++ "_list") (Val.recList g.2)) gs

/-- Function `get_creators` on the ordered creator rows of one item. -/
def get_creators (rows : List (String × String × String)) : List (String × Val) :=
  buildCreatorsResult [] (groupCreators rows)

/-- Function `get_tags`: `{"tags": tags} if tags else {}`. -/
def get_tags (tags : List String) : List (String × Val) :=
  match tags with
  | [] => []
  | l => [("tags", Val.strList l)]

/-! ### Library extraction driver (`add_from_sql`) -/

/-- A row of the `items` table (joined columns used by the driver). -/
structure ZItem where
  itemID : Nat
  itemTypeID : Nat
  key : String
  dateAdded : String
deriving DecidableEq, Repr

/-- A row of the `itemTypes` table. -/
structure ZItemType where
  itemTypeID : Nat
  typeName : String
deriving DecidableEq, Repr

/-- The join `items, itemTypes WHERE itemType.itemTypeID = item.itemTypeID
AND itemType.typeName NOT IN (<excluded>)` shared by the count query and the
enumeration query. -/
def joinItems (excludedTypes : List String) (types : List ZItemType)
    (items : List ZItem) : List (ZItem × String) :=
  items.flatMap (fun it =>
    (types.filter (fun ty =>
        ty.itemTypeID == it.itemTypeID && !(excludedTypes.contains ty.typeName))).map
      (fun ty => (it, ty.typeName)))

/-- Comparison used by `ORDER BY item.itemID`. -/
def itemLE (a b : ZItem × String) : Prop := a.1.itemID ≤ b.1.itemID

instance : DecidableRel itemLE := fun a b => Nat.decLe a.1.itemID b.1.itemID

instance : IsTotal (ZItem × String) itemLE := ⟨fun a b => Nat.le_total a.1.itemID b.1.itemID⟩

instance : IsTrans (ZItem × String) itemLE := ⟨fun _ _ _ => Nat.le_trans⟩

/-- Query `ZOTERO_QUERY_ITEMS`: the non-excluded items ordered by internal item
identifier ascending. -/
def enumerate_items (excludedTypes : List String) (types : List ZItemType)
    (items : List ZItem) : List (ZItem × String) :=
  List.insertionSort itemLE (joinItems excludedTypes types items)

/-- Query `ZOTERO_QUERY_ITEM_COUNT`: `COUNT(item.itemID)` over the same join. -/
def item_count (excludedTypes : List String) (types : List ZItemType)
    (items : List ZItem) : Nat :=
  (joinItems excludedTypes types items).length

/-- The relational state read from `zotero.sqlite`, one list per table shape
used by the five per-item queries. Per-item row lists are stored in each
query's `ORDER BY` order. -/
structure ZoteroDB where
  items : List ZItem
  itemTypes : List ZItemType
  itemData : List (Nat × String × String)
  itemCreators : List (Nat × String × String × String)
  itemAttachments : List (Nat × ZAttachment)
  itemTags : List (Nat × String)
  collections : List ZCollection
  collectionItems : List (Nat × Nat)

/-- Query `ZOTERO_QUERY_ITEM_FIELD` for one item: `(fieldName, value)` pairs. -/
def fieldsFor (db : ZoteroDB) (itemId : Nat) : List (String × String) :=
  (db.itemData.filter (fun r => r.1 == itemId)).map (fun r => r.2)

/-- Query `ZOTERO_QUERY_ITEM_CREATORS` for one item. -/
def creatorsFor (db : ZoteroDB) (itemId : Nat) : List (String × String × String) :=
  (db.itemCreators.filter (fun r => r.1 == itemId)).map (fun r => r.2)

/-- Query `ZOTERO_QUERY_ITEM_ATTACHMENTS` for one item (before the MIME filter,
which `get_files` applies). -/
def attachmentsFor (db : ZoteroDB) (itemId : Nat) : List ZAttachment :=
  (db.itemAttachments.filter (fun r => r.1 == itemId)).map (fun r => r.2)

/-- Query `ZOTERO_QUERY_ITEM_TAGS` for one item. -/
def tagsFor (db : ZoteroDB) (itemId : Nat) : List String :=
  (db.itemTags.filter (fun r => r.1 == itemId)).map (fun r => r.2)

/-- The static configuration the driver reads: the five fixed lookup tables
(modelled from the spec: they live in `papis_zotero.utils`, which is not part
of the specified core source), the configured time format conversion
(`datetime.strptime(...).strftime(time_format)`, kept abstract as a total
string function), and the configured `add-folder-name`. -/
structure Config where
  excludedFields : List String
  excludedItemTypes : List String
  supportedMimetypes : List String
  fieldNameMap : List (String × String)
  itemTypeMap : List (String × String)
  timeFormatFn : String → String
  folderName : String

/-- The arguments of one call to the external add-operation
(`add(paths=files, data=item, link=link, folder_name=folder_name,
subfolder=subfolder)`). -/
structure AddArgs where
  paths : List String
  data : List (String × Val)
  link : Bool
  folderName : String
  subfolder : String
deriving DecidableEq, Repr

/-- Errors a run can raise: the three pre-flight `FileNotFoundError`s, or an
exception propagating out of the external add-operation. -/
inductive RunError where
  | notFound (path : String)
  | addFailed
deriving DecidableEq, Repr

/-- Observable outcome of a run: the add-operation calls attempted, in order,
and the error that aborted the run, if any. -/
structure RunResult where
  calls : List AddArgs
  error : Option RunError
deriving DecidableEq, Repr

/-- Model of `attachments_folder or input_path`: Python `or` falls back on `None` and
on the empty (falsy) string. -/
def defaultAttachmentsFolder (af : Option String) (inputPath : String) : String :=
  match af with
  | none => inputPath
  | some s => if s = "" then inputPath else s

/-- Model of `os.path.join(*collections)` for a non-empty name list. -/
def joinAll (c : String) (cs : List String) : String := cs.foldl joinPath c

/-- The resolved attachment paths of one enumerated item. -/
def itemFiles (cfg : Config) (fs : List String) (db : ZoteroDB)
    (inputPath attachmentsFolder : String) (it : ZItem × String) : List String :=
  get_files cfg.supportedMimetypes fs inputPath attachmentsFolder
    (attachmentsFor db it.1.itemID)

/-- The normalized record of one enumerated item: the base fields
`{type, time-added, files}` updated in turn with the outputs of the field,
creator, tag and collection resolvers. -/
def buildItemData (cfg : Config) (fs : List String) (db : ZoteroDB)
    (inputPath attachmentsFolder : String) (it : ZItem × String) : List (String × Val) :=
  dictUpdate
    (dictUpdate
      (dictUpdate
        (dictUpdate
          [("type", Val.str (dictGetD cfg.itemTypeMap it.2)),
            ("time-added", Val.str (cfg.timeFormatFn it.1.dateAdded)),
            ("files", Val.strList (itemFiles cfg fs db inputPath attachmentsFolder it))]
          (get_fields cfg.excludedFields cfg.fieldNameMap (fieldsFor db it.1.itemID)))
        (get_creators (creatorsFor db it.1.itemID)))
      (get_tags (tagsFor db it.1.itemID)))
    (collectionsDict db.collections db.collectionItems it.1.itemID)

/-- The destination subfolder: the joined collection path when the record has
a non-empty `collections` list, else the fixed default `"Misc"`. -/
def itemSubfolder (data : List (String × Val)) : String :=
  match alookup data "collections" with
  | some (Val.strList (c :: cs)) => joinAll c cs
  | _ => "Misc"

/-- The loop body of `add_from_sql` for one enumerated `(item, typeName)`
row: convert the timestamp, translate the item type, run the five resolvers,
merge into one record, and derive the destination subfolder. -/
def buildItem (cfg : Config) (fs : List String) (db : ZoteroDB)
    (inputPath attachmentsFolder : String) (link : Bool)
    (it : ZItem × String) : AddArgs :=
  ⟨itemFiles cfg fs db inputPath attachmentsFolder it,
    buildItemData cfg fs db inputPath attachmentsFolder it,
    link, cfg.folderName,
    itemSubfolder (buildItemData cfg fs db inputPath attachmentsFolder it)⟩

/-- The item loop: call the add-operation once per item, in order; a `false`
return models the call raising, which propagates and ends the loop with the
failing call as the last one attempted. -/
def runLoop (addOp : AddArgs → Bool) : List AddArgs → RunResult
  | [] => ⟨[], none⟩
  | a :: rest =>
    if addOp a then
      let r := runLoop addOp rest
      ⟨a :: r.calls, r.error⟩
    else ⟨[a], some RunError.addFailed⟩

/-- Function `add_from_sql`: pre-flight existence checks on the library root, the
destination folder (already resolved by the caller, as `get_lib_dirs()[0]`
when not given) and the `zotero.sqlite` file, then the per-item extraction
loop over the non-excluded items. `fs` is the set of paths existing on disk;
`addOp` is the external add-operation. -/
def add_from_sql (cfg : Config) (db : ZoteroDB) (fs : List String)
    (inputPath outFolder : String) (attachmentsFolder : Option String)
    (link : Bool) (addOp : AddArgs → Bool) : RunResult :=
  if fs.contains inputPath then
    if fs.contains outFolder then
      if fs.contains (joinPath inputPath "zotero.sqlite") then
        let af := defaultAttachmentsFolder attachmentsFolder inputPath
        runLoop addOp
          ((enumerate_items cfg.excludedItemTypes db.itemTypes db.items).map
            (buildItem cfg fs db inputPath af link))
      else ⟨[], some (RunError.notFound (joinPath inputPath "zotero.sqlite"))⟩
    else ⟨[], some (RunError.notFound outFolder)⟩
  else ⟨[], some (RunError.notFound inputPath)⟩

/-- A minimal configuration used by concrete runs. -/
def cfgPlain : Config := ⟨[], [], [], [], [], fun s => s, "ref"⟩

/-- A database with two plain items of a non-excluded type and no
field/creator/attachment/tag/collection rows. -/
def dbTwoItems : ZoteroDB :=
  ⟨[⟨1, 1, "A", "d1"⟩, ⟨2, 1, "B", "d2"⟩], [⟨1, "article"⟩], [], [], [], [], [], []⟩

/-- The on-disk paths for concrete runs: library root, destination, database. -/
def fsPlain : List String := ["/in", "/out", "/in/zotero.sqlite"]

/-- Accumulated value of one role group after adding a list of creators. -/
def combineGroup (o : Option (List (String × String))) (l : List (String × String)) :
    Option (List (String × String)) :=
  match o, l with
  | none, [] => none
  | o, l => some (o.getD [] ++ l)

/-! ### Dictionary lemmas -/

theorem alookup_dictInsertV_self (d : List (String × Val)) (k : String) (v : Val) :
    alookup (dictInsertV d k v) k = some v := by
  induction d with
  | nil => simp [dictInsertV, alookup]
  | cons hd tl ih =>
    by_cases h : hd.1 = k
    · simp [dictInsertV, alookup, h]
    · simp [dictInsertV, alookup, h, ih]

theorem alookup_dictInsertV_ne (d : List (String × Val)) (k k' : String) (v : Val)
    (h : k' ≠ k) : alookup (dictInsertV d k v) k' = alookup d k' := by
  induction d with
  | nil => simp [dictInsertV, alookup, Ne.symm h]
  | cons hd tl ih =>
    by_cases h0 : hd.1 = k
    · subst h0
      simp [dictInsertV, alookup, Ne.symm h]
    · by_cases h1 : hd.1 = k'
      · simp [dictInsertV, alookup, h0, h1, h]
      · simp [dictInsertV, alookup, h0, h1, ih]

theorem alookup_map_str (d : List (String × String)) (k : String) :
    alookup (d.map (fun kv => (kv.1, Val.str kv.2))) k = (alookup d k).map Val.str := by
  induction d with
  | nil => simp [alookup]
  | cons hd tl ih =>
    by_cases h : hd.1 = k
    · simp [alookup, h]
    · simp [alookup, h, ih]

theorem alookup_eq_none_iff {α : Type} (d : List (String × α)) (k : String) :
    alookup d k = none ↔ k ∉ keysOf d := by
  induction d with
  | nil => simp [alookup, keysOf]
  | cons hd tl ih =>
    by_cases h : hd.1 = k
    · simp [alookup, keysOf, h]
    · simp only [alookup, if_neg h, keysOf, List.map_cons, List.mem_cons]
      rw [ih]
      constructor
      · intro hk hc
        rcases hc with hc | hc
        · exact h hc.symm
        · exact hk hc
      · intro hk hc
        exact hk (Or.inr hc)

theorem keysOf_dictInsertS (d : List (String × String)) (k : String) (v : String) :
    keysOf (dictInsertS d k v) = if k ∈ keysOf d then keysOf d else keysOf d ++ [k] := by
  induction d with
  | nil => simp [dictInsertS, keysOf]
  | cons hd tl ih =>
    by_cases h : hd.1 = k
    · simp [dictInsertS, keysOf, h]
    · simp only [dictInsertS, keysOf, List.map_cons, if_neg h] at ih ⊢
      rw [ih]
      have hne : ¬ k = hd.1 := fun he => h he.symm
      by_cases hm : k ∈ List.map Prod.fst tl <;>
        simp [hm, hne]

theorem nodup_keysOf_dictInsertS (d : List (String × String)) (k : String) (v : String)
    (h : (keysOf d).Nodup) : (keysOf (dictInsertS d k v)).Nodup := by
  rw [keysOf_dictInsertS]
  by_cases hm : k ∈ keysOf d
  · simpa [hm]
  · simp only [if_neg hm]
    refine List.Nodup.append h (List.nodup_singleton k) ?_
    intro a ha hb
    rw [List.mem_singleton] at hb
    exact hm (hb ▸ ha)

theorem nodup_keysOf_collectFields (excluded : List String)
    (fieldNameMap : List (String × String)) (rows : List (String × String)) :
    (keysOf (collectFields excluded fieldNameMap rows)).Nodup := by
  suffices h : ∀ acc, (keysOf acc).Nodup →
      (keysOf (rows.foldl
        (fun d r => if excluded.contains r.1 then d
                    else dictInsertS d (dictGetD fieldNameMap r.1) r.2) acc)).Nodup by
    exact h [] (by simp [keysOf])
  induction rows with
  | nil => intro acc h; exact h
  | cons r rest ih =>
    intro acc h
    simp only [List.foldl_cons]
    by_cases hc : r.1 ∈ excluded
    · simpa [hc] using ih acc h
    · simpa [hc] using ih _ (nodup_keysOf_dictInsertS acc _ r.2 h)

theorem dictPopS_fst (d : List (String × String)) (k : String) :
    (dictPopS d k).1 = alookup d k := by
  induction d with
  | nil => simp [dictPopS, alookup]
  | cons hd tl ih =>
    by_cases h : hd.1 = k
    · simp [dictPopS, alookup, h]
    · simp [dictPopS, alookup, h, ih]

theorem alookup_dictPopS_ne (d : List (String × String)) (k k' : String) (h : k' ≠ k) :
    alookup (dictPopS d k).2 k' = alookup d k' := by
  induction d with
  | nil => simp [dictPopS, alookup]
  | cons hd tl ih =>
    by_cases h0 : hd.1 = k
    · subst h0
      simp [dictPopS, alookup, Ne.symm h]
    · by_cases h1 : hd.1 = k'
      · simp [dictPopS, alookup, h0, h1, h]
      · simp [dictPopS, alookup, h0, h1, ih]

theorem alookup_dictPopS_self (d : List (String × String)) (k : String)
    (h : (keysOf d).Nodup) : alookup (dictPopS d k).2 k = none := by
  induction d with
  | nil => simp [dictPopS, alookup]
  | cons hd tl ih =>
    simp only [keysOf, List.map_cons, List.nodup_cons] at h
    by_cases h0 : hd.1 = k
    · subst h0
      simp only [dictPopS, if_pos rfl]
      exact (alookup_eq_none_iff tl hd.1).mpr h.1
    · simpa [dictPopS, alookup, h0] using ih h.2

/-! ### Date regex lemmas -/

theorem takeDigitsUpTo_exact (y rest : List Char) (hd : ∀ c ∈ y, isDig c = true) :
    takeDigitsUpTo y.length (y ++ rest) = (y, rest) := by
  induction y with
  | nil => simp [takeDigitsUpTo]
  | cons c cs ih =>
    have ih2 := ih (fun x hx => hd x (List.mem_cons_of_mem _ hx))
    simp only [List.length_cons, List.cons_append, takeDigitsUpTo,
      if_pos (hd c (List.mem_cons_self _ _))]
    simp [ih2]

theorem takeDigitsUpTo_boundary (n : Nat) (y rest : List Char)
    (hd : ∀ c ∈ y, isDig c = true) (hn : y.length ≤ n)
    (hb : ∀ c, rest.head? = some c → isDig c = false) :
    takeDigitsUpTo n (y ++ rest) = (y, rest) := by
  induction y generalizing n with
  | nil =>
    simp only [List.nil_append]
    match n, rest with
    | 0, _ => rfl
    | _ + 1, [] => rfl
    | _ + 1, c :: cs => simp [takeDigitsUpTo, hb c rfl]
  | cons c cs ih =>
    cases n with
    | zero => exact absurd hn (by simp)
    | succ m =>
      have ih2 := ih m (fun x hx => hd x (List.mem_cons_of_mem _ hx)) (by simpa using hn)
      simp only [List.cons_append, takeDigitsUpTo, if_pos (hd c (List.mem_cons_self _ _))]
      simp [ih2]

theorem isoDateMatch_year_only (y : List Char) (hy4 : y.length = 4)
    (hyd : ∀ c ∈ y, isDig c = true) :
    isoDateMatch y = some (y, none, none) := by
  have h := takeDigitsUpTo_exact y [] hyd
  rw [List.append_nil, hy4] at h
  have hne : ¬ y = [] := by intro he; rw [he] at hy4; simp at hy4
  simp [isoDateMatch, h, hy4, skipDash, takeDigitsUpTo, List.isEmpty_iff]

theorem isoDateMatch_year_month (y m : List Char) (hy4 : y.length = 4)
    (hyd : ∀ c ∈ y, isDig c = true) (hm : m.length = 1 ∨ m.length = 2)
    (hmd : ∀ c ∈ m, isDig c = true) :
    isoDateMatch (y ++ '-' :: m) = some (y, some m, none) := by
  have h := takeDigitsUpTo_exact y ('-' :: m) hyd
  rw [hy4] at h
  have hm2 : takeDigitsUpTo 2 (m ++ []) = (m, []) :=
    takeDigitsUpTo_boundary 2 m [] hmd (by rcases hm with h | h <;> omega)
      (fun c hc => by simp at hc)
  rw [List.append_nil] at hm2
  have hne : ¬ m = [] := by
    intro he; rw [he] at hm; simp at hm
  simp [isoDateMatch, h, hy4, skipDash, hm2, takeDigitsUpTo, List.isEmpty_iff, hne]

theorem isoDateMatch_year_month_day (y m d : List Char) (hy4 : y.length = 4)
    (hyd : ∀ c ∈ y, isDig c = true) (hm : m.length = 1 ∨ m.length = 2)
    (hmd : ∀ c ∈ m, isDig c = true) (hdl : d.length = 1 ∨ d.length = 2)
    (hdd : ∀ c ∈ d, isDig c = true) :
    isoDateMatch (y ++ '-' :: (m ++ '-' :: d)) = some (y, some m, some d) := by
  have h := takeDigitsUpTo_exact y ('-' :: (m ++ '-' :: d)) hyd
  rw [hy4] at h
  have hm2 : takeDigitsUpTo 2 (m ++ '-' :: d) = (m, '-' :: d) :=
    takeDigitsUpTo_boundary 2 m ('-' :: d) hmd (by rcases hm with h | h <;> omega)
      (fun c hc => by simp at hc; rw [← hc]; rfl)
  have hd2 : takeDigitsUpTo 2 (d ++ []) = (d, []) :=
    takeDigitsUpTo_boundary 2 d [] hdd (by rcases hdl with h | h <;> omega)
      (fun c hc => by simp at hc)
  rw [List.append_nil] at hd2
  have hmne : ¬ m = [] := by intro he; rw [he] at hm; simp at hm
  have hdne : ¬ d = [] := by intro he; rw [he] at hdl; simp at hdl
  simp [isoDateMatch, h, hy4, skipDash, hm2, hd2, List.isEmpty_iff, hmne, hdne]

theorem takeDigitsUpTo_fst_length_le (n : Nat) (cs : List Char) :
    (takeDigitsUpTo n cs).1.length ≤ n := by
  induction cs generalizing n with
  | nil => cases n <;> simp [takeDigitsUpTo]
  | cons c t ih =>
    cases n with
    | zero => simp [takeDigitsUpTo]
    | succ k =>
      by_cases h : isDig c
      · simpa [takeDigitsUpTo, h] using ih k
      · simp [takeDigitsUpTo, h]

theorem isoDateMatch_none_of_no_four_digits (s : String)
    (h : hasFourDigitPrefix s = false) : isoDateMatch s.data = none := by
  suffices hlen : ¬ (takeDigitsUpTo 4 s.data).1.length = 4 by
    simp [isoDateMatch, hlen]
  intro hc
  apply absurd h
  simp only [hasFourDigitPrefix, Bool.not_eq_false, Bool.and_eq_true, decide_eq_true_eq]
  have : ∀ n (cs : List Char), (takeDigitsUpTo n cs).1.length = n →
      (cs.take n).length = n ∧ (cs.take n).all isDig = true := by
    intro n
    induction n with
    | zero => intro cs _; simp
    | succ k ih =>
      intro cs hx
      match cs with
      | [] => simp [takeDigitsUpTo] at hx
      | c :: t =>
        by_cases hdig : isDig c
        · simp only [takeDigitsUpTo, if_pos hdig, List.length_cons, Nat.succ.injEq] at hx
          obtain ⟨h1, h2⟩ := ih t hx
          simp [List.take_succ_cons, h1, h2, hdig]
        · simp [takeDigitsUpTo, hdig] at hx
  exact this 4 s.data hc

theorem get_fields_match_case (excluded : List String) (fm : List (String × String))
    (rows : List (String × String)) (s : String) (y : List Char)
    (mo da : Option (List Char))
    (h : rawDate excluded fm rows = some s)
    (hiso : isoDateMatch s.data = some (y, mo, da)) :
    alookup (get_fields excluded fm rows) "year" = some (Val.nat (digitsToNat y)) ∧
    alookup (get_fields excluded fm rows) "date" = none ∧
    (∀ m, mo = some m →
      alookup (get_fields excluded fm rows) "month" = some (Val.nat (digitsToNat m))) := by
  unfold rawDate at h
  have hdate : alookup ((dictPopS (collectFields excluded fm rows) "date").2.map
      (fun kv => (kv.1, Val.str kv.2))) "date" = none := by
    rw [alookup_map_str,
      alookup_dictPopS_self _ _ (nodup_keysOf_collectFields excluded fm rows)]
    rfl
  simp only [get_fields, h, hiso]
  cases mo with
  | none =>
    refine ⟨alookup_dictInsertV_self _ _ _, ?_, ?_⟩
    · rw [alookup_dictInsertV_ne _ _ _ _ (by decide)]
      exact hdate
    · intro m hm; cases hm
  | some m =>
    refine ⟨?_, ?_, ?_⟩
    · rw [alookup_dictInsertV_ne _ _ _ _ (by decide)]
      exact alookup_dictInsertV_self _ _ _
    · rw [alookup_dictInsertV_ne _ _ _ _ (by decide),
        alookup_dictInsertV_ne _ _ _ _ (by decide)]
      exact hdate
    · intro m' hm'
      cases hm'
      exact alookup_dictInsertV_self _ _ _

/-- C5: for every item whose raw `date` field string has the form `YYYY`,
`YYYY-MM`, or `YYYY-MM-DD`, the map returned by `get_fields` contains the
integer `year` (and the integer `month` when the month part is present, the
day part being discarded) and contains no `date` key. -/
theorem get_fields_iso_date_splits (excluded : List String)
    (fm : List (String × String)) (rows : List (String × String))
    (y m d : List Char)
    (hy4 : y.length = 4) (hyd : ∀ c ∈ y, isDig c = true)
    (hml : m.length = 1 ∨ m.length = 2) (hmd : ∀ c ∈ m, isDig c = true)
    (hdl : d.length = 1 ∨ d.length = 2) (hdd : ∀ c ∈ d, isDig c = true) :
    (rawDate excluded fm rows = some (String.mk y) →
      alookup (get_fields excluded fm rows) "year" = some (Val.nat (digitsToNat y)) ∧
      alookup (get_fields excluded fm rows) "date" = none) ∧
    (rawDate excluded fm rows = some (String.mk (y ++ '-' :: m)) →
      alookup (get_fields excluded fm rows) "year" = some (Val.nat (digitsToNat y)) ∧
      alookup (get_fields excluded fm rows) "month" = some (Val.nat (digitsToNat m)) ∧
      alookup (get_fields excluded fm rows) "date" = none) ∧
    (rawDate excluded fm rows = some (String.mk (y ++ '-' :: (m ++ '-' :: d))) →
      alookup (get_fields excluded fm rows) "year" = some (Val.nat (digitsToNat y)) ∧
      alookup (get_fields excluded fm rows) "month" = some (Val.nat (digitsToNat m)) ∧
      alookup (get_fields excluded fm rows) "date" = none) := by
  refine ⟨?_, ?_, ?_⟩
  · intro h
    have hc := get_fields_match_case excluded fm rows _ y none none h
      (isoDateMatch_year_only y hy4 hyd)
    exact ⟨hc.1, hc.2.1⟩
  · intro h
    have hc := get_fields_match_case excluded fm rows _ y (some m) none h
      (isoDateMatch_year_month y m hy4 hyd hml hmd)
    exact ⟨hc.1, hc.2.2 m rfl, hc.2.1⟩
  · intro h
    have hc := get_fields_match_case excluded fm rows _ y (some m) (some d) h
      (isoDateMatch_year_month_day y m d hy4 hyd hml hmd hdl hdd)
    exact ⟨hc.1, hc.2.2 m rfl, hc.2.1⟩

/-- Witness for C5, at the concrete item field list `[("date", "1999-06-12")]`. -/
theorem get_fields_iso_date_splits_witness :
    alookup (get_fields [] [] [("date", "1999-06-12")]) "year" = some (Val.nat 1999) ∧
    alookup (get_fields [] [] [("date", "1999-06-12")]) "month" = some (Val.nat 6) ∧
    alookup (get_fields [] [] [("date", "1999-06-12")]) "date" = none :=
  (get_fields_iso_date_splits [] [] [("date", "1999-06-12")]
    "1999".data "06".data "12".data
    (by decide) (by decide) (by decide) (by decide) (by decide) (by decide)).2.2
    (by decide)

/-- C2 counterexample: the date string `"1999 June"` does not have the form
`YYYY[-MM[-DD]]`, yet `get_fields` drops the `date` key and sets
`year = 1999`, because `ISO_DATE_RE` is used as an (anchored) prefix match
and already succeeds on the four leading digits. -/
theorem get_fields_prefix_match_counterexample :
    specDateShape "1999 June" = false ∧
    alookup (get_fields [] [] [("date", "1999 June")]) "date" = none ∧
    alookup (get_fields [] [] [("date", "1999 June")]) "year" = some (Val.nat 1999) := by
  decide

/-- C2 (amended): for every item whose raw `date` field string does not start
with four digits — the condition under which `ISO_DATE_RE` actually fails to
match — `get_fields` retains the literal string under `date`; and provided the
item's other fields do not themselves produce a `year` or `month` key, the
result contains neither `year` nor `month`. -/
theorem get_fields_unmatched_date_restored (excluded : List String)
    (fm : List (String × String)) (rows : List (String × String)) (s : String)
    (h : rawDate excluded fm rows = some s)
    (h4 : hasFourDigitPrefix s = false)
    (hy : alookup (collectFields excluded fm rows) "year" = none)
    (hm : alookup (collectFields excluded fm rows) "month" = none) :
    alookup (get_fields excluded fm rows) "date" = some (Val.str s) ∧
    alookup (get_fields excluded fm rows) "year" = none ∧
    alookup (get_fields excluded fm rows) "month" = none := by
  unfold rawDate at h
  have hiso := isoDateMatch_none_of_no_four_digits s h4
  have hbase : ∀ k, k ≠ "date" →
      alookup ((dictPopS (collectFields excluded fm rows) "date").2.map
        (fun kv => (kv.1, Val.str kv.2))) k
        = (alookup (collectFields excluded fm rows) k).map Val.str := by
    intro k hk
    rw [alookup_map_str, alookup_dictPopS_ne _ _ _ hk]
  simp only [get_fields, h, hiso]
  refine ⟨alookup_dictInsertV_self _ _ _, ?_, ?_⟩
  · rw [alookup_dictInsertV_ne _ _ _ _ (by decide), hbase "year" (by decide), hy]
    rfl
  · rw [alookup_dictInsertV_ne _ _ _ _ (by decide), hbase "month" (by decide), hm]
    rfl

/-- C3: for every item whose collection memberships reach a chain
`Leaf -> Mid -> Root` (Root having no parent), `get_collections` returns
exactly `["Root", "Mid", "Leaf"]`: the walk starts from the item's direct
membership (here the leaf, its only one), follows parent pointers to the
root, deduplicates by name, and emits names sorted by depth descending. -/
theorem get_collections_chain (itemId iR iM iL : Nat) (nR nM nL : String)
    (hRM : iR ≠ iM) (hRL : iR ≠ iL) (hML : iM ≠ iL)
    (hnRM : nR ≠ nM) (hnRL : nR ≠ nL) (hnML : nM ≠ nL) :
    get_collections
      [⟨iR, nR, none⟩, ⟨iM, nM, some iR⟩, ⟨iL, nL, some iM⟩]
      [(iL, itemId)] itemId = [nR, nM, nL] := by
  have hfL : findCollection
      [⟨iR, nR, none⟩, ⟨iM, nM, some iR⟩, ⟨iL, nL, some iM⟩] iL
      = some ⟨iL, nL, some iM⟩ := by
    simp [findCollection, List.find?, hRL, hML]
  have hfM : findCollection
      [⟨iR, nR, none⟩, ⟨iM, nM, some iR⟩, ⟨iL, nL, some iM⟩] iM
      = some ⟨iM, nM, some iR⟩ := by
    simp [findCollection, List.find?, hRM]
  have hfR : findCollection
      [⟨iR, nR, none⟩, ⟨iM, nM, some iR⟩, ⟨iL, nL, some iM⟩] iR
      = some ⟨iR, nR, none⟩ := by
    simp [findCollection, List.find?]
  have hstart : chooseStart
      [⟨iR, nR, none⟩, ⟨iM, nM, some iR⟩, ⟨iL, nL, some iM⟩]
      [(iL, itemId)] itemId = some ⟨iL, nL, some iM⟩ := by
    simp [chooseStart, directCollections, hfL]
  have hwalk : walkUp
      [⟨iR, nR, none⟩, ⟨iM, nM, some iR⟩, ⟨iL, nL, some iM⟩] 3 (some iM) 1
      = [(nM, 1), (nR, 2)] := by
    simp [walkUp, hfM, hfR]
  simp only [get_collections, hstart, List.length_cons, List.length_nil, hwalk]
  simp [dedupeByName, hnRM, hnRL, hnML, Ne.symm hnRM, Ne.symm hnRL, Ne.symm hnML,
    sortByDepthDesc, List.insertionSort, List.orderedInsert]

/-- Witness for C3 at a concrete three-collection chain. -/
theorem get_collections_chain_witness :
    get_collections
      [⟨1, "Root", none⟩, ⟨2, "Mid", some 1⟩, ⟨3, "Leaf", some 2⟩]
      [(3, 7)] 7 = ["Root", "Mid", "Leaf"] :=
  get_collections_chain 7 1 2 3 "Root" "Mid" "Leaf"
    (by decide) (by decide) (by decide) (by decide) (by decide) (by decide)

theorem string_data_append (s t : String) : (s ++ t).data = s.data ++ t.data := rfl

theorem isPrefixOf_append_self (l r : List Char) : l.isPrefixOf (l ++ r) = true := by
  induction l with
  | nil => simp [List.isPrefixOf]
  | cons c cs ih => simp [List.isPrefixOf, ih]

theorem reMatchGroupAfter_append (pre name : String)
    (h : ∀ c ∈ name.data, c ≠ '\n') :
    reMatchGroupAfter pre (pre ++ name) = some name := by
  simp only [reMatchGroupAfter, string_data_append, isPrefixOf_append_self, if_true]
  rw [List.drop_left, List.takeWhile_eq_self_iff.mpr (by simpa using h)]

/-- C4: an attachment row of supported MIME type with path `storage:<name>`
under key `K` contributes `<library_root>/storage/K/<name>` to the result of
`get_files` exactly when that path exists on disk; when it does not exist the
row is dropped and the surrounding rows are still processed, so the item's
extraction succeeds either way. -/
theorem get_files_storage_resolution (supported fs : List String)
    (ip af K name mime : String) (pre post : List ZAttachment)
    (hmime : supported.contains mime = true)
    (hname : ∀ c ∈ name.data, c ≠ '\n') :
    get_files supported fs ip af
        (pre ++ ⟨K, some ("storage:" ++ name), mime⟩ :: post)
      = get_files supported fs ip af pre
        ++ (if fs.contains (joinPath (joinPath (joinPath ip "storage") K) name)
            then [joinPath (joinPath (joinPath ip "storage") K) name] else [])
        ++ get_files supported fs ip af post := by
  have hres : resolveAttachment fs ip af ⟨K, some ("storage:" ++ name), mime⟩
      = if fs.contains (joinPath (joinPath (joinPath ip "storage") K) name)
        then some (joinPath (joinPath (joinPath ip "storage") K) name) else none := by
    simp only [resolveAttachment, reMatchGroupAfter_append "storage:" name hname]
  simp only [get_files, List.filter_append, List.filter_cons, hmime, if_true,
    List.filterMap_append, List.filterMap_cons, hres]
  cases hc : fs.contains (joinPath (joinPath (joinPath ip "storage") K) name) <;> simp [hc]

/-- Witness for C4: one existing and one missing storage attachment. -/
theorem get_files_storage_resolution_witness :
    get_files ["application/pdf"] ["/lib/storage/K1/a.pdf"] "/lib" "/lib"
        ([] ++ ⟨"K1", some ("storage:" ++ "a.pdf"), "application/pdf"⟩ :: [])
      = [] ++ (if ["/lib/storage/K1/a.pdf"].contains
            (joinPath (joinPath (joinPath "/lib" "storage") "K1") "a.pdf")
          then [joinPath (joinPath (joinPath "/lib" "storage") "K1") "a.pdf"] else [])
        ++ [] ∧
    get_files ["application/pdf"] [] "/lib" "/lib"
        ([] ++ ⟨"K1", some ("storage:" ++ "a.pdf"), "application/pdf"⟩ :: [])
      = [] ++ (if List.contains []
            (joinPath (joinPath (joinPath "/lib" "storage") "K1") "a.pdf")
          then [joinPath (joinPath (joinPath "/lib" "storage") "K1") "a.pdf"] else [])
        ++ [] :=
  ⟨get_files_storage_resolution ["application/pdf"] ["/lib/storage/K1/a.pdf"]
      "/lib" "/lib" "K1" "a.pdf" "application/pdf" [] [] (by decide) (by decide),
    get_files_storage_resolution ["application/pdf"] []
      "/lib" "/lib" "K1" "a.pdf" "application/pdf" [] [] (by decide) (by decide)⟩

theorem runLoop_all_true (addOp : AddArgs → Bool) (l : List AddArgs)
    (h : ∀ a ∈ l, addOp a = true) : runLoop addOp l = ⟨l, none⟩ := by
  induction l with
  | nil => rfl
  | cons a rest ih =>
    simp only [runLoop, h a (List.mem_cons_self _ _), if_true]
    rw [ih (fun b hb => h b (List.mem_cons_of_mem _ hb))]

theorem runLoop_fail_at (addOp : AddArgs → Bool) (pre : List AddArgs) (x : AddArgs)
    (post : List AddArgs) (hpre : ∀ a ∈ pre, addOp a = true) (hx : addOp x = false) :
    runLoop addOp (pre ++ x :: post) = ⟨pre ++ [x], some RunError.addFailed⟩ := by
  induction pre with
  | nil => simp [runLoop, hx]
  | cons a rest ih =>
    simp only [List.cons_append, runLoop, hpre a (List.mem_cons_self _ _), if_true]
    simp [ih (fun b hb => hpre b (List.mem_cons_of_mem _ hb))]

/-- C7: `add_from_sql` checks its preconditions before processing any item:
if the library root does not exist, the destination folder does not exist, or
the library root lacks `zotero.sqlite`, the run aborts with a not-found error
and no item is handed to the add-operation. -/
theorem add_from_sql_preflight_aborts (cfg : Config) (db : ZoteroDB)
    (fs : List String) (ip out : String) (af : Option String) (link : Bool)
    (addOp : AddArgs → Bool)
    (h : fs.contains ip = false ∨ fs.contains out = false ∨
      fs.contains (joinPath ip "zotero.sqlite") = false) :
    ∃ p, add_from_sql cfg db fs ip out af link addOp
      = ⟨[], some (RunError.notFound p)⟩ := by
  rcases h with h | h | h
  · have hm : ip ∉ fs := by simpa using h
    exact ⟨ip, by simp [add_from_sql, hm]⟩
  · have hm : out ∉ fs := by simpa using h
    by_cases c1 : ip ∈ fs
    · exact ⟨out, by simp [add_from_sql, c1, hm]⟩
    · exact ⟨ip, by simp [add_from_sql, c1]⟩
  · have hm : joinPath ip "zotero.sqlite" ∉ fs := by simpa using h
    by_cases c1 : ip ∈ fs
    · by_cases c2 : out ∈ fs
      · exact ⟨joinPath ip "zotero.sqlite", by simp [add_from_sql, c1, c2, hm]⟩
      · exact ⟨out, by simp [add_from_sql, c1, c2]⟩
    · exact ⟨ip, by simp [add_from_sql, c1]⟩

/-- Witness for C7: a run against an empty file system aborts before any call. -/
theorem add_from_sql_preflight_aborts_witness :
    ∃ p, add_from_sql cfgPlain dbTwoItems [] "/in" "/out" none false (fun _ => true)
      = ⟨[], some (RunError.notFound p)⟩ :=
  add_from_sql_preflight_aborts cfgPlain dbTwoItems [] "/in" "/out" none false
    (fun _ => true) (Or.inl (by decide))

/-- C9: no excluded-type item appears among the enumerated items, the count
used for progress reporting equals the number of enumerated (non-excluded)
items, and the enumeration is ordered by internal item identifier ascending. -/
theorem enumerate_items_excludes_and_counts (excludedTypes : List String)
    (types : List ZItemType) (items : List ZItem) :
    (∀ p ∈ enumerate_items excludedTypes types items,
      excludedTypes.contains p.2 = false) ∧
    item_count excludedTypes types items
      = (enumerate_items excludedTypes types items).length ∧
    List.Sorted itemLE (enumerate_items excludedTypes types items) := by
  refine ⟨?_, ?_, ?_⟩
  · intro p hp
    have hmem : p ∈ joinItems excludedTypes types items :=
      (List.perm_insertionSort itemLE (joinItems excludedTypes types items)).mem_iff.mp hp
    simp only [joinItems, List.mem_flatMap, List.mem_map, List.mem_filter] at hmem
    obtain ⟨it, _, ty, ⟨_, hty⟩, hpe⟩ := hmem
    rw [Bool.and_eq_true] at hty
    have hnot := hty.2
    rw [Bool.not_eq_eq_eq_not] at hnot
    rw [← hpe]
    simpa using hnot
  · exact ((List.perm_insertionSort itemLE _).length_eq).symm
  · exact List.sorted_insertionSort itemLE _

/-- Witness for C9 on a concrete database with one excluded and one kept item. -/
theorem enumerate_items_excludes_and_counts_witness :
    (["note"] : List String).contains
      (((⟨5, 1, "K", "d"⟩ : ZItem), "article") : ZItem × String).2 = false ∧
    item_count ["note"] [⟨1, "article"⟩, ⟨2, "note"⟩] [⟨5, 1, "K", "d"⟩, ⟨6, 2, "N", "d"⟩]
      = (enumerate_items ["note"] [⟨1, "article"⟩, ⟨2, "note"⟩]
          [⟨5, 1, "K", "d"⟩, ⟨6, 2, "N", "d"⟩]).length :=
  ⟨(enumerate_items_excludes_and_counts ["note"] [⟨1, "article"⟩, ⟨2, "note"⟩]
      [⟨5, 1, "K", "d"⟩, ⟨6, 2, "N", "d"⟩]).1 _ (by decide),
    (enumerate_items_excludes_and_counts ["note"] [⟨1, "article"⟩, ⟨2, "note"⟩]
      [⟨5, 1, "K", "d"⟩, ⟨6, 2, "N", "d"⟩]).2.1⟩

/-- C1 counterexample: with two enumerated items and an add-operation that
raises on the first call, only the first item's call is attempted — the
failure aborts the loop (there is no per-item `try/except` in the source), so
a failure adding item `i` does prevent item `i + 1` from being attempted. -/
theorem add_from_sql_failure_not_isolated_counterexample :
    enumerate_items cfgPlain.excludedItemTypes dbTwoItems.itemTypes dbTwoItems.items
      = [(⟨1, 1, "A", "d1"⟩, "article"), (⟨2, 1, "B", "d2"⟩, "article")] ∧
    (add_from_sql cfgPlain dbTwoItems fsPlain "/in" "/out" none false (fun _ => false)).calls
      = [buildItem cfgPlain fsPlain dbTwoItems "/in" "/in" false (⟨1, 1, "A", "d1"⟩, "article")] ∧
    (add_from_sql cfgPlain dbTwoItems fsPlain "/in" "/out" none false
      (fun _ => false)).error = some RunError.addFailed := by
  decide

/-- C1 (amended): a failure of the external add-operation for one item is not
caught: the exception propagates, the run ends with the calls attempted up to
and including the failing one, and the items after it are never handed to the
add-operation. -/
theorem add_from_sql_add_failure_aborts (cfg : Config) (db : ZoteroDB)
    (fs : List String) (ip out : String) (af : Option String) (link : Bool)
    (addOp : AddArgs → Bool) (pre : List AddArgs) (x : AddArgs) (post : List AddArgs)
    (h1 : fs.contains ip = true) (h2 : fs.contains out = true)
    (h3 : fs.contains (joinPath ip "zotero.sqlite") = true)
    (hsplit : (enumerate_items cfg.excludedItemTypes db.itemTypes db.items).map
        (buildItem cfg fs db ip (defaultAttachmentsFolder af ip) link)
      = pre ++ x :: post)
    (hpre : ∀ a ∈ pre, addOp a = true) (hx : addOp x = false) :
    add_from_sql cfg db fs ip out af link addOp
      = ⟨pre ++ [x], some RunError.addFailed⟩ := by
  have m1 : ip ∈ fs := by simpa using h1
  have m2 : out ∈ fs := by simpa using h2
  have m3 : joinPath ip "zotero.sqlite" ∈ fs := by simpa using h3
  simp only [add_from_sql, m1, m2, m3, if_true, List.elem_eq_mem, decide_eq_true_eq]
  rw [hsplit]
  exact runLoop_fail_at addOp pre x post hpre hx

/-- Witness for the amended C1: the failing call is attempted, the second
item's call is not. -/
theorem add_from_sql_add_failure_aborts_witness :
    add_from_sql cfgPlain dbTwoItems fsPlain "/in" "/out" none false (fun _ => false)
      = ⟨[] ++ [buildItem cfgPlain fsPlain dbTwoItems "/in" "/in" false
          (⟨1, 1, "A", "d1"⟩, "article")], some RunError.addFailed⟩ :=
  add_from_sql_add_failure_aborts cfgPlain dbTwoItems fsPlain "/in" "/out" none false
    (fun _ => false) []
    (buildItem cfgPlain fsPlain dbTwoItems "/in" "/in" false (⟨1, 1, "A", "d1"⟩, "article"))
    [buildItem cfgPlain fsPlain dbTwoItems "/in" "/in" false (⟨2, 1, "B", "d2"⟩, "article")]
    (by decide) (by decide) (by decide) (by decide)
    (fun a ha => absurd ha (List.not_mem_nil a)) rfl

theorem defaultAttachmentsFolder_some_self (ip : String) :
    defaultAttachmentsFolder (some ip) ip = ip := by
  simp only [defaultAttachmentsFolder]
  by_cases h : ip = "" <;> simp [h]

theorem storage_prefix_fails_on_attachments (name : String) :
    reMatchGroupAfter "storage:" ("attachments:" ++ name) = none := by
  have h : "storage:".data.isPrefixOf ("attachments:" ++ name).data = false := rfl
  simp [reMatchGroupAfter, h]

/-- C10: when the caller of `add_from_sql` supplies no attachments folder the
library root itself is the fallback attachments directory for the whole run
(so the run equals one with the library root passed explicitly), and every
supported attachment with path `attachments:<name>` is then resolved against
`<library_root>/<name>`, kept exactly when that path exists on disk. -/
theorem add_from_sql_default_attachments_folder (cfg : Config) (db : ZoteroDB)
    (supported fs : List String) (ip out : String) (link : Bool)
    (addOp : AddArgs → Bool) (K name mime : String) (pre post : List ZAttachment)
    (hmime : supported.contains mime = true)
    (hname : ∀ c ∈ name.data, c ≠ '\n') :
    defaultAttachmentsFolder none ip = ip ∧
    add_from_sql cfg db fs ip out none link addOp
      = add_from_sql cfg db fs ip out (some ip) link addOp ∧
    get_files supported fs ip (defaultAttachmentsFolder none ip)
        (pre ++ ⟨K, some ("attachments:" ++ name), mime⟩ :: post)
      = get_files supported fs ip (defaultAttachmentsFolder none ip) pre
        ++ (if fs.contains (joinPath ip name) then [joinPath ip name] else [])
        ++ get_files supported fs ip (defaultAttachmentsFolder none ip) post := by
  refine ⟨rfl, ?_, ?_⟩
  · have hEq : defaultAttachmentsFolder none ip = defaultAttachmentsFolder (some ip) ip :=
      (defaultAttachmentsFolder_some_self ip).symm
    unfold add_from_sql
    rw [hEq]
  · have hres : resolveAttachment fs ip (defaultAttachmentsFolder none ip)
        ⟨K, some ("attachments:" ++ name), mime⟩
        = if fs.contains (joinPath ip name) then some (joinPath ip name) else none := by
      simp only [resolveAttachment, storage_prefix_fails_on_attachments,
        reMatchGroupAfter_append "attachments:" name hname, defaultAttachmentsFolder]
    simp only [get_files, List.filter_append, List.filter_cons, hmime, if_true,
      List.filterMap_append, List.filterMap_cons, hres]
    cases hc : fs.contains (joinPath ip name) <;> simp [hc]

/-- Witness for C10 at a concrete existing attachment. -/
theorem add_from_sql_default_attachments_folder_witness :
    defaultAttachmentsFolder none "/lib" = "/lib" ∧
    add_from_sql cfgPlain dbTwoItems fsPlain "/lib" "/out" none false (fun _ => true)
      = add_from_sql cfgPlain dbTwoItems fsPlain "/lib" "/out" (some "/lib") false
          (fun _ => true) ∧
    get_files ["application/pdf"] ["/lib/b.pdf"] "/lib"
        (defaultAttachmentsFolder none "/lib")
        ([] ++ ⟨"K2", some ("attachments:" ++ "b.pdf"), "application/pdf"⟩ :: [])
      = get_files ["application/pdf"] ["/lib/b.pdf"] "/lib"
          (defaultAttachmentsFolder none "/lib") []
        ++ (if List.contains ["/lib/b.pdf"] (joinPath "/lib" "b.pdf")
            then [joinPath "/lib" "b.pdf"] else [])
        ++ get_files ["application/pdf"] ["/lib/b.pdf"] "/lib"
            (defaultAttachmentsFolder none "/lib") [] :=
  add_from_sql_default_attachments_folder cfgPlain dbTwoItems ["application/pdf"]
    ["/lib/b.pdf"] "/lib" "/out" false (fun _ => true) "K2" "b.pdf" "application/pdf"
    [] [] (by decide) (by decide)

theorem combineGroup_some (a : List (String × String)) (l : List (String × String)) :
    combineGroup (some a) l = some (a ++ l) := by
  cases l <;> simp [combineGroup]

theorem combineGroup_none_of_ne (l : List (String × String)) (h : l ≠ []) :
    combineGroup none l = some l := by
  cases l with
  | nil => exact absurd rfl h
  | cons a t => simp [combineGroup]

theorem alookup_addToGroup (acc : List (String × List (String × String))) (k : String)
    (v : String × String) (t : String) :
    alookup (addToGroup acc k v) t
      = if t = k then some ((alookup acc k).getD [] ++ [v]) else alookup acc t := by
  induction acc with
  | nil =>
    by_cases h : t = k
    · simp [addToGroup, alookup, h]
    · simp [addToGroup, alookup, h, Ne.symm h]
  | cons g rest ih =>
    obtain ⟨k0, l0⟩ := g
    by_cases hk : k0 = k
    · subst hk
      by_cases ht : k0 = t
      · subst ht
        simp [addToGroup, alookup]
      · have hne : ¬ t = k0 := fun he => ht he.symm
        simp [addToGroup, alookup, ht, hne]
    · by_cases ht : k0 = t
      · subst ht
        simp [addToGroup, alookup, hk]
      · simp [addToGroup, alookup, hk, ht, ih]

theorem alookup_groupCreators_fold (rows : List (String × String × String))
    (acc : List (String × List (String × String))) (t : String) :
    alookup (rows.foldl (fun acc r => addToGroup acc (strToLower r.1) (r.2.1, r.2.2)) acc) t
      = combineGroup (alookup acc t)
          ((rows.filter (fun r => strToLower r.1 = t)).map (fun r => (r.2.1, r.2.2))) := by
  induction rows generalizing acc with
  | nil =>
    cases h : alookup acc t <;> simp [combineGroup, h]
  | cons r rest ih =>
    simp only [List.foldl_cons]
    rw [ih]
    by_cases hc : strToLower r.1 = t
    · rw [alookup_addToGroup, if_pos hc.symm, hc]
      rw [List.filter_cons_of_pos (by simpa using hc), List.map_cons]
      rw [combineGroup_some]
      cases h : alookup acc t with
      | none => simp [combineGroup_none_of_ne, h, combineGroup]
      | some a => simp [combineGroup_some, h]
    · rw [alookup_addToGroup, if_neg (fun he => hc he.symm)]
      rw [List.filter_cons_of_neg (by simpa using hc)]

theorem alookup_groupCreators (rows : List (String × String × String)) (t : String) :
    alookup (groupCreators rows) t
      = combineGroup none
          ((rows.filter (fun r => strToLower r.1 = t)).map (fun r => (r.2.1, r.2.2))) :=
  alookup_groupCreators_fold rows [] t

theorem keysOf_addToGroup (acc : List (String × List (String × String))) (k : String)
    (v : String × String) :
    keysOf (addToGroup acc k v)
      = if k ∈ keysOf acc then keysOf acc else keysOf acc ++ [k] := by
  induction acc with
  | nil => simp [addToGroup, keysOf]
  | cons g rest ih =>
    obtain ⟨k0, l0⟩ := g
    by_cases h : k0 = k
    · simp [addToGroup, keysOf, h]
    · simp only [addToGroup, keysOf, List.map_cons, if_neg h] at ih ⊢
      rw [ih]
      have hne : ¬ k = k0 := fun he => h he.symm
      by_cases hm : k ∈ List.map Prod.fst rest <;> simp [hm, hne]

theorem nodup_keysOf_groupCreators (rows : List (String × String × String)) :
    (keysOf (groupCreators rows)).Nodup := by
  suffices h : ∀ acc : List (String × List (String × String)), (keysOf acc).Nodup →
      (keysOf (rows.foldl (fun acc r => addToGroup acc (strToLower r.1) (r.2.1, r.2.2)) acc)).Nodup by
    exact h [] (by simp [keysOf])
  induction rows with
  | nil => intro acc h; exact h
  | cons r rest ih =>
    intro acc h
    simp only [List.foldl_cons]
    refine ih _ ?_
    rw [keysOf_addToGroup]
    by_cases hm : strToLower r.1 ∈ keysOf acc
    · simpa [hm]
    · simp only [if_neg hm]
      refine List.Nodup.append h (List.nodup_singleton _) ?_
      intro a ha hb
      rw [List.mem_singleton] at hb
      exact hm (hb ▸ ha)

theorem mem_keysOf_groupCreators (rows : List (String × String × String)) (k : String)
    (hk : k ∈ keysOf (groupCreators rows)) : ∃ r ∈ rows, strToLower r.1 = k := by
  have hne : alookup (groupCreators rows) k ≠ none := by
    rw [Ne, alookup_eq_none_iff]
    exact fun hc => hc hk
  rw [alookup_groupCreators] at hne
  cases hf : rows.filter (fun r => strToLower r.1 = k) with
  | nil => rw [hf] at hne; simp [combineGroup] at hne
  | cons a t =>
    have ha : a ∈ rows.filter (fun r => strToLower r.1 = k) := by rw [hf]; exact List.mem_cons_self _ _
    rw [List.mem_filter] at ha
    exact ⟨a, ha.1, by simpa using ha.2⟩

theorem alookup_some_split {α : Type} (d : List (String × α)) (k : String) (v : α)
    (h : alookup d k = some v) :
    ∃ d1 d2, d = d1 ++ (k, v) :: d2 ∧ ∀ g ∈ d1, g.1 ≠ k := by
  induction d with
  | nil => simp [alookup] at h
  | cons g rest ih =>
    obtain ⟨k0, v0⟩ := g
    by_cases hk : k0 = k
    · subst hk
      have hv : v0 = v := by simpa [alookup] using h
      refine ⟨[], rest, ?_, fun g hg => absurd hg (List.not_mem_nil g)⟩
      rw [hv]
      rfl
    · simp only [alookup, if_neg hk] at h
      obtain ⟨d1, d2, he, hne⟩ := ih h
      refine ⟨(k0, v0) :: d1, d2, by rw [he, List.cons_append], ?_⟩
      intro g hg
      rcases List.mem_cons.mp hg with hg | hg
      · rw [hg]; exact hk
      · exact hne g hg

theorem buildCreatorsResult_append (acc : List (String × Val))
    (gs1 gs2 : List (String × List (String × String))) :
    buildCreatorsResult acc (gs1 ++ gs2)
      = buildCreatorsResult (buildCreatorsResult acc gs1) gs2 := by
  induction gs1 generalizing acc with
  | nil => rfl
  | cons g rest ih => simp [buildCreatorsResult, ih]

theorem alookup_buildCreatorsResult_skip (gs : List (String × List (String × String)))
    (acc : List (String × Val)) (t : String)
    (h : ∀ g ∈ gs, g.1 ≠ t ∧ g.1 ++ "_list" ≠ t) :
    alookup (buildCreatorsResult acc gs) t = alookup acc t := by
  induction gs generalizing acc with
  | nil => rfl
  | cons g rest ih =>
    have hg := h g (List.mem_cons_self _ _)
    simp only [buildCreatorsResult]
    rw [ih _ (fun g' hg' => h g' (List.mem_cons_of_mem _ hg')),
      alookup_dictInsertV_ne _ _ _ _ (Ne.symm hg.2),
      alookup_dictInsertV_ne _ _ _ _ (Ne.symm hg.1)]

theorem string_length_append_list (t : String) : (t ++ "_list").length = t.length + 5 := by
  rw [String.length_append]
  rfl

theorem ne_append_list_self (t : String) : t ≠ t ++ "_list" := by
  intro he
  have hl := congrArg String.length he
  rw [string_length_append_list] at hl
  omega

theorem string_append_right_cancel {a b c : String} (h : a ++ c = b ++ c) : a = b := by
  have hd := congrArg String.data h
  simp only [String.data_append] at hd
  exact String.ext (List.append_cancel_right hd)

theorem append3_ne_empty (x m y : String) (hm : m.length = 2) : x ++ m ++ y ≠ "" := by
  intro he
  have hl := congrArg String.length he
  rw [String.length_append, String.length_append, hm] at hl
  have h0 : String.length "" = 0 := rfl
  rw [h0] at hl
  omega

theorem author_list_to_author_ne_empty :
    ∀ l : List (String × String), l ≠ [] → author_list_to_author l ≠ ""
  | [], h => absurd rfl h
  | [a], _ => append3_ne_empty a.2 ", " a.1 rfl
  | a :: b :: rest, _ =>
    append3_ne_empty (a.2 ++ ", " ++ a.1) "; " (author_list_to_author (b :: rest)) rfl

/-- C6: for every item with at least one creator of role `t` (and role names
that do not collide with `_list`-suffixed keys), the result of `get_creators`
maps the lower-cased role key to a non-empty display string and `t_list` to
the ordered list of `(given, family)` records in the database's per-item
order (the query's filter order). In particular, author rows in order
`[(A,B),(C,D)]` give `author_list = [(A,B),(C,D)]` (see the witness). -/
theorem get_creators_role_keys (rows : List (String × String × String)) (t : String)
    (hmem : ∃ r ∈ rows, strToLower r.1 = t)
    (hA : ∀ r ∈ rows, strToLower r.1 ≠ t ++ "_list")
    (hB : ∀ r ∈ rows, strToLower r.1 ++ "_list" ≠ t) :
    alookup (get_creators rows) t
      = some (Val.str (author_list_to_author
          ((rows.filter (fun r => strToLower r.1 = t)).map (fun r => (r.2.1, r.2.2))))) ∧
    author_list_to_author
        ((rows.filter (fun r => strToLower r.1 = t)).map (fun r => (r.2.1, r.2.2))) ≠ "" ∧
    alookup (get_creators rows) (t ++ "_list")
      = some (Val.recList
          ((rows.filter (fun r => strToLower r.1 = t)).map (fun r => (r.2.1, r.2.2)))) := by
  obtain ⟨r0, hr0, hr0t⟩ := hmem
  set lst := (rows.filter (fun r => strToLower r.1 = t)).map (fun r => (r.2.1, r.2.2)) with hlst
  have hfne : rows.filter (fun r => strToLower r.1 = t) ≠ [] := by
    intro hc
    have hin : r0 ∈ rows.filter (fun r => strToLower r.1 = t) :=
      List.mem_filter.mpr ⟨hr0, by simpa using hr0t⟩
    rw [hc] at hin
    exact List.not_mem_nil r0 hin
  have hlne : lst ≠ [] := by
    rw [hlst]
    intro hc
    exact hfne (List.map_eq_nil_iff.mp hc)
  have hlook : alookup (groupCreators rows) t = some lst := by
    rw [alookup_groupCreators]
    exact combineGroup_none_of_ne lst hlne
  obtain ⟨gs1, gs2, hsplit, hgs1⟩ := alookup_some_split _ _ _ hlook
  have hnodup := nodup_keysOf_groupCreators rows
  rw [hsplit] at hnodup
  simp only [keysOf, List.map_append, List.map_cons] at hnodup
  have htnot : t ∉ gs2.map Prod.fst := by
    have hsub : (t :: gs2.map Prod.fst).Nodup :=
      List.Nodup.sublist (List.sublist_append_right (gs1.map Prod.fst) _) hnodup
    exact (List.nodup_cons.mp hsub).1
  have hkeyrow : ∀ g ∈ gs2, ∃ r ∈ rows, strToLower r.1 = g.1 := by
    intro g hg
    apply mem_keysOf_groupCreators
    rw [hsplit]
    simp only [keysOf, List.map_append, List.map_cons]
    exact List.mem_append_right _ (List.mem_cons_of_mem _ (List.mem_map_of_mem _ hg))
  have hskip2 : ∀ g ∈ gs2, g.1 ≠ t ∧ g.1 ++ "_list" ≠ t := by
    intro g hg
    obtain ⟨r, hr, hrg⟩ := hkeyrow g hg
    refine ⟨?_, by rw [← hrg]; exact hB r hr⟩
    intro he
    exact htnot (he ▸ List.mem_map_of_mem Prod.fst hg)
  have hskip2L : ∀ g ∈ gs2, g.1 ≠ t ++ "_list" ∧ g.1 ++ "_list" ≠ t ++ "_list" := by
    intro g hg
    obtain ⟨r, hr, hrg⟩ := hkeyrow g hg
    refine ⟨by rw [← hrg]; exact hA r hr, ?_⟩
    intro he
    exact (hskip2 g hg).1 (string_append_right_cancel he)
  have hget : get_creators rows
      = buildCreatorsResult
          (dictInsertV
            (dictInsertV (buildCreatorsResult [] gs1) t
              (Val.str (author_list_to_author lst)))
            (t ++ "_list") (Val.recList lst)) gs2 := by
    show buildCreatorsResult [] (groupCreators rows) = _
    rw [hsplit, buildCreatorsResult_append]
    rfl
  refine ⟨?_, author_list_to_author_ne_empty lst hlne, ?_⟩
  · rw [hget, alookup_buildCreatorsResult_skip gs2 _ t hskip2,
      alookup_dictInsertV_ne _ _ _ _ (ne_append_list_self t),
      alookup_dictInsertV_self]
  · rw [hget, alookup_buildCreatorsResult_skip gs2 _ (t ++ "_list") hskip2L,
      alookup_dictInsertV_self]

/-- Witness for C6: two authors `(A, B)` and `(C, D)` in database order. -/
theorem get_creators_role_keys_witness :
    alookup (get_creators [("author", "A", "B"), ("author", "C", "D")]) "author"
      = some (Val.str (author_list_to_author [("A", "B"), ("C", "D")])) ∧
    author_list_to_author [("A", "B"), ("C", "D")] ≠ "" ∧
    alookup (get_creators [("author", "A", "B"), ("author", "C", "D")]) "author_list"
      = some (Val.recList [("A", "B"), ("C", "D")]) :=
  get_creators_role_keys [("author", "A", "B"), ("author", "C", "D")] "author"
    (by decide) (by decide) (by decide)

theorem keysOf_collectFields_mem (excluded : List String) (fm : List (String × String))
    (rows : List (String × String)) (k : String)
    (hk : k ∈ keysOf (collectFields excluded fm rows)) :
    ∃ r ∈ rows, k = dictGetD fm r.1 := by
  suffices h : ∀ acc : List (String × String),
      k ∈ keysOf (rows.foldl
        (fun d r => if excluded.contains r.1 then d
                    else dictInsertS d (dictGetD fm r.1) r.2) acc) →
      k ∈ keysOf acc ∨ ∃ r ∈ rows, k = dictGetD fm r.1 by
    rcases h [] hk with hc | hc
    · simp [keysOf] at hc
    · exact hc
  clear hk
  induction rows with
  | nil => intro acc h; exact Or.inl h
  | cons r rest ih =>
    intro acc h
    simp only [List.foldl_cons] at h
    rcases ih _ h with hc | hc
    · by_cases hb : excluded.contains r.1 = true
      · rw [if_pos hb] at hc
        exact Or.inl hc
      · rw [if_neg hb] at hc
        rw [keysOf_dictInsertS] at hc
        by_cases hm : dictGetD fm r.1 ∈ keysOf acc
        · rw [if_pos hm] at hc
          exact Or.inl hc
        · rw [if_neg hm] at hc
          rcases List.mem_append.mp hc with hc | hc
          · exact Or.inl hc
          · rw [List.mem_singleton] at hc
            exact Or.inr ⟨r, List.mem_cons_self _ _, hc⟩
    · obtain ⟨r', hr', he⟩ := hc
      exact Or.inr ⟨r', List.mem_cons_of_mem _ hr', he⟩

theorem alookup_get_fields_none (excluded : List String) (fm : List (String × String))
    (rows : List (String × String)) (k : String)
    (hk : alookup (collectFields excluded fm rows) k = none)
    (h1 : k ≠ "year") (h2 : k ≠ "month") (h3 : k ≠ "date") :
    alookup (get_fields excluded fm rows) k = none := by
  have hbase : alookup ((dictPopS (collectFields excluded fm rows) "date").2.map
      (fun kv => (kv.1, Val.str kv.2))) k = none := by
    rw [alookup_map_str, alookup_dictPopS_ne _ _ _ h3, hk]
    rfl
  rcases hp : (dictPopS (collectFields excluded fm rows) "date").1 with _ | date
  · simp only [get_fields, hp]
    exact hbase
  · rcases hiso : isoDateMatch date.data with _ | ⟨y, mo, da⟩
    · simp only [get_fields, hp, hiso]
      rw [alookup_dictInsertV_ne _ _ _ _ h3]
      exact hbase
    · rcases mo with _ | m
      · simp only [get_fields, hp, hiso]
        rw [alookup_dictInsertV_ne _ _ _ _ h1]
        exact hbase
      · simp only [get_fields, hp, hiso]
        rw [alookup_dictInsertV_ne _ _ _ _ h2, alookup_dictInsertV_ne _ _ _ _ h1]
        exact hbase

theorem alookup_get_creators_none (rows : List (String × String × String)) (k : String)
    (h : ∀ r ∈ rows, strToLower r.1 ≠ k ∧ strToLower r.1 ++ "_list" ≠ k) :
    alookup (get_creators rows) k = none := by
  have hall : ∀ g ∈ groupCreators rows, g.1 ≠ k ∧ g.1 ++ "_list" ≠ k := by
    intro g hg
    obtain ⟨r, hr, hrg⟩ :=
      mem_keysOf_groupCreators rows g.1 (List.mem_map_of_mem Prod.fst hg)
    exact ⟨hrg ▸ (h r hr).1, hrg ▸ (h r hr).2⟩
  show alookup (buildCreatorsResult [] (groupCreators rows)) k = none
  rw [alookup_buildCreatorsResult_skip _ _ _ hall]
  rfl

theorem alookup_get_tags_ne (tags : List String) (k : String) (h : k ≠ "tags") :
    alookup (get_tags tags) k = none := by
  cases tags with
  | nil => rfl
  | cons a t => simp [get_tags, alookup, Ne.symm h]

theorem alookup_dictUpdate_none (d u : List (String × Val)) (k : String)
    (hd : alookup d k = none) (hu : alookup u k = none) :
    alookup (dictUpdate d u) k = none := by
  induction u generalizing d with
  | nil => exact hd
  | cons kv rest ih =>
    by_cases h : kv.1 = k
    · rw [show alookup (kv :: rest) k = some kv.2 from by
        simp [alookup, h]] at hu
      exact absurd hu (by simp)
    · have hu2 : alookup rest k = none := by simpa [alookup, h] using hu
      have hd2 : alookup (dictInsertV d kv.1 kv.2) k = none := by
        rw [alookup_dictInsertV_ne _ _ _ _ (fun he => h he.symm)]
        exact hd
      exact ih (dictInsertV d kv.1 kv.2) hd2 hu2

/-- C8: for every item that belongs to zero collections, the normalized
record handed to the add-operation contains no `collections` key (provided no
field or creator of the item maps to that key) and the destination subfolder
is the fixed default `"Misc"`; the item's call is part of the run. -/
theorem add_from_sql_no_collections_misc (cfg : Config) (db : ZoteroDB)
    (fs : List String) (ip out : String) (af : Option String) (link : Bool)
    (addOp : AddArgs → Bool) (it : ZItem × String)
    (h1 : fs.contains ip = true) (h2 : fs.contains out = true)
    (h3 : fs.contains (joinPath ip "zotero.sqlite") = true)
    (hadd : ∀ a, addOp a = true)
    (hit : it ∈ enumerate_items cfg.excludedItemTypes db.itemTypes db.items)
    (hcol : get_collections db.collections db.collectionItems it.1.itemID = [])
    (hf : ∀ r ∈ fieldsFor db it.1.itemID, dictGetD cfg.fieldNameMap r.1 ≠ "collections")
    (hcr : ∀ r ∈ creatorsFor db it.1.itemID, strToLower r.1 ≠ "collections" ∧
      strToLower r.1 ++ "_list" ≠ "collections") :
    buildItem cfg fs db ip (defaultAttachmentsFolder af ip) link it
      ∈ (add_from_sql cfg db fs ip out af link addOp).calls ∧
    alookup (buildItem cfg fs db ip (defaultAttachmentsFolder af ip) link it).data
      "collections" = none ∧
    (buildItem cfg fs db ip (defaultAttachmentsFolder af ip) link it).subfolder
      = "Misc" := by
  have m1 : ip ∈ fs := by simpa using h1
  have m2 : out ∈ fs := by simpa using h2
  have m3 : joinPath ip "zotero.sqlite" ∈ fs := by simpa using h3
  have hcalls : (add_from_sql cfg db fs ip out af link addOp).calls
      = (enumerate_items cfg.excludedItemTypes db.itemTypes db.items).map
          (buildItem cfg fs db ip (defaultAttachmentsFolder af ip) link) := by
    simp only [add_from_sql, m1, m2, m3, if_true, List.elem_eq_mem, decide_eq_true_eq]
    rw [runLoop_all_true addOp _ (fun a _ => hadd a)]
  have hdict : collectionsDict db.collections db.collectionItems it.1.itemID = [] := by
    simp only [collectionsDict, hcol]
  have hfields : alookup (get_fields cfg.excludedFields cfg.fieldNameMap
      (fieldsFor db it.1.itemID)) "collections" = none := by
    apply alookup_get_fields_none
    · rw [alookup_eq_none_iff]
      intro hk
      obtain ⟨r, hr, he⟩ := keysOf_collectFields_mem _ _ _ _ hk
      exact hf r hr he.symm
    · decide
    · decide
    · decide
  have hcreators : alookup (get_creators (creatorsFor db it.1.itemID))
      "collections" = none :=
    alookup_get_creators_none _ _ hcr
  have htags : alookup (get_tags (tagsFor db it.1.itemID)) "collections" = none :=
    alookup_get_tags_ne _ _ (by decide)
  have hdata : alookup (buildItem cfg fs db ip (defaultAttachmentsFolder af ip) link it).data
      "collections" = none := by
    show alookup (buildItemData cfg fs db ip (defaultAttachmentsFolder af ip) it)
      "collections" = none
    rw [buildItemData, hdict]
    show alookup (dictUpdate (dictUpdate (dictUpdate (dictUpdate _ _) _) _) [])
      "collections" = none
    rw [show ∀ d : List (String × Val), dictUpdate d [] = d from fun d => rfl]
    refine alookup_dictUpdate_none _ _ _ ?_ htags
    refine alookup_dictUpdate_none _ _ _ ?_ hcreators
    refine alookup_dictUpdate_none _ _ _ ?_ hfields
    rfl
  refine ⟨?_, hdata, ?_⟩
  · rw [hcalls]
    exact List.mem_map_of_mem _ hit
  · show itemSubfolder (buildItemData cfg fs db ip (defaultAttachmentsFolder af ip) it)
      = "Misc"
    rw [itemSubfolder]
    rw [show alookup (buildItemData cfg fs db ip (defaultAttachmentsFolder af ip) it)
      "collections" = none from hdata]

/-- Witness for C8: the first item of the two-item database belongs to no
collection, lands in `"Misc"`, and carries no `collections` key. -/
theorem add_from_sql_no_collections_misc_witness :
    buildItem cfgPlain fsPlain dbTwoItems "/in" (defaultAttachmentsFolder none "/in")
        false (⟨1, 1, "A", "d1"⟩, "article")
      ∈ (add_from_sql cfgPlain dbTwoItems fsPlain "/in" "/out" none false
          (fun _ => true)).calls ∧
    alookup (buildItem cfgPlain fsPlain dbTwoItems "/in"
        (defaultAttachmentsFolder none "/in") false (⟨1, 1, "A", "d1"⟩, "article")).data
      "collections" = none ∧
    (buildItem cfgPlain fsPlain dbTwoItems "/in" (defaultAttachmentsFolder none "/in")
        false (⟨1, 1, "A", "d1"⟩, "article")).subfolder = "Misc" :=
  add_from_sql_no_collections_misc cfgPlain dbTwoItems fsPlain "/in" "/out" none false
    (fun _ => true) (⟨1, 1, "A", "d1"⟩, "article")
    (by decide) (by decide) (by decide) (fun a => rfl)
    (by decide) (by decide) (by decide) (by decide)

/-- Witness for the amended C2, at the concrete field list `[("date", "June 1999")]`. -/
theorem get_fields_unmatched_date_restored_witness :
    alookup (get_fields [] [] [("date", "June 1999")]) "date"
      = some (Val.str "June 1999") ∧
    alookup (get_fields [] [] [("date", "June 1999")]) "year" = none ∧
    alookup (get_fields [] [] [("date", "June 1999")]) "month" = none :=
  get_fields_unmatched_date_restored [] [] [("date", "June 1999")] "June 1999"
    (by decide) (by decide) (by decide) (by decide)

end PapisZotero
